import Mathlib

/-!
Verification of the YOLO export pipeline of the kili SDK
(`src/kili/services/conversion/format/yolo/{common,merge,split}.py`,
`src/kili/services/conversion/{video,tools}.py`).

The Python code works on duck-typed JSON dictionaries.  The embedding uses
typed structures whose `Option` fields model the presence or absence of the
corresponding JSON key, association lists (`List (String × _)`) model Python
dicts in insertion order, and `Except PyErr` models Python exceptions.
Coordinates are rationals (`ℚ`): the Python floats of every fixture are exact
decimal literals and the claims only involve `min`, `max`, sums, differences
and halving, so field arithmetic is the intended reading.  External
collaborators (the content repository resolving per-frame URLs, the network,
ffmpeg) are passed in as explicit parameters holding their observable results.
-/

/-- Python exceptions that the modelled code can raise. -/
inductive PyErr where
  | keyError (key : String)
  | indexError
  | valueError (msg : String)
  | typeError
  | ffmpegError (msg : String)
deriving DecidableEq, Repr

/-- First-match lookup in an association list, like `d[k]` / `d.get(k)` on a
Python dict (keys of a dict are unique, so first match is the match). -/
def lookupKey {α : Type} (l : List (String × α)) (k : String) : Option α :=
  (l.find? (fun p => p.1 == k)).map (fun p => p.2)

/-- `k in d` on a Python dict. -/
def hasKey {α : Type} (l : List (String × α)) (k : String) : Bool :=
  l.any (fun p => p.1 == k)

/-- `min(x :: xs)` of Python over a nonempty list (left fold, as Python scans). -/
def qMin (x : ℚ) (xs : List ℚ) : ℚ := xs.foldl min x

/-- `max(x :: xs)` of Python over a nonempty list. -/
def qMax (x : ℚ) (xs : List ℚ) : ℚ := xs.foldl max x

/-- A normalized vertex `{"x": …, "y": …}`. -/
structure Vertex where
  x : ℚ
  y : ℚ
deriving DecidableEq, Repr

/-- One ring of a `boundingPoly`; the `normalizedVertices` key may be absent. -/
structure VertexRing where
  normalizedVertices : Option (List Vertex)
deriving DecidableEq, Repr

/-- One raw annotation dict: the names of its `categories` entries, and the
optional `boundingPoly` list of rings. -/
structure KiliAnn where
  categories : List String
  boundingPoly : Option (List VertexRing)
deriving DecidableEq, Repr

/-- The value of `jsonResponse[job_id]`: a dict with an optional
`"annotations"` key. -/
structure JobResp where
  annotations : Option (List KiliAnn)
deriving DecidableEq, Repr

/-- A per-frame response: a dict from job id to its response. -/
abbrev FrameResp := List (String × JobResp)

/-- A value of the top-level `jsonResponse` dict.  For a single-frame label
the values are job responses; for a video label the keys are `"0"`, `"1"`, …
and the values are whole per-frame responses. -/
inductive JRVal where
  | job (r : JobResp)
  | frame (f : FrameResp)
deriving DecidableEq, Repr

/-- The top-level `jsonResponse` dict. -/
abbrev JsonResp := List (String × JRVal)

/-- A label dict; the `jsonResponse` key may be absent. -/
structure Label where
  jsonResponse : Option JsonResp
deriving DecidableEq, Repr

/-- The asset fields the export reads. -/
structure Asset where
  id : String
  externalId : String
  content : String
  latestLabel : Label
deriving DecidableEq, Repr

/-- `JobCategory` of `src/kili/services/conversion/typing.py`. -/
structure JobCategory where
  category_name : String
  id : Nat
  job_id : String
deriving DecidableEq, Repr

/-- One converted annotation `(category id, x_center, y_center, width, height)`. -/
abbrev YoloAnn := Nat × ℚ × ℚ × ℚ × ℚ

instance : DecidableEq (String × List YoloAnn) :=
  fun a b => inferInstanceAs (Decidable (a = b))

instance {A : Type} [DecidableEq A] : DecidableEq (Except PyErr A) :=
  fun a b =>
    match a, b with
    | .ok x, .ok y =>
      if h : x = y then isTrue (by rw [h]) else isFalse (by simp [h])
    | .error e1, .error e2 =>
      if h : e1 = e2 then isTrue (by rw [h]) else isFalse (by simp [h])
    | .ok _, .error _ => isFalse (by simp)
    | .error _, .ok _ => isFalse (by simp)

/-- `get_category_full_name` of `common.py`. -/
def getCategoryFullName (jobId : String) (categoryName : String) : String :=
  jobId ++ "__" ++ categoryName

/-- The body of the `for annotation in annotations` loop of
`_convert_from_kili_to_yolo_format` (`common.py`, lines 128-145) on one raw
annotation: `.error` models a raised exception, `.ok none` a `continue`,
`.ok (some y)` an appended record.  The category lookup
`category_ids[get_category_full_name(...)]` happens before the
`boundingPoly` guards, exactly as in the source. -/
def convertAnn (jobId : String) (categoryIds : List (String × JobCategory))
    (a : KiliAnn) : Except PyErr (Option YoloAnn) :=
  match a.categories.head? with
  | none => .error .indexError
  | some catName =>
    match lookupKey categoryIds (getCategoryFullName jobId catName) with
    | none => .error (.keyError (getCategoryFullName jobId catName))
    | some jc =>
      match a.boundingPoly with
      | none => .ok none
      | some rings =>
        match rings.head? with
        | none => .ok none
        | some ring =>
          match ring.normalizedVertices with
          | none => .ok none
          | some verts =>
            match verts with
            | [] => .error (.valueError "min() arg is an empty sequence")
            | v :: vs =>
              let xMin := qMin v.x (vs.map Vertex.x)
              let yMin := qMin v.y (vs.map Vertex.y)
              let xMax := qMax v.x (vs.map Vertex.x)
              let yMax := qMax v.y (vs.map Vertex.y)
              .ok (some (jc.id, (xMax + xMin) / 2, (yMax + yMin) / 2,
                    xMax - xMin, yMax - yMin))

/-- The whole loop: converted records in order; the first raised exception
aborts. -/
def convertAnns (jobId : String) (categoryIds : List (String × JobCategory)) :
    List KiliAnn → Except PyErr (List YoloAnn)
  | [] => .ok []
  | a :: rest =>
    match convertAnn jobId categoryIds a with
    | .error e => .error e
    | .ok none => convertAnns jobId categoryIds rest
    | .ok (some y) =>
      match convertAnns jobId categoryIds rest with
      | .error e => .error e
      | .ok ys => .ok (y :: ys)

/-- `_convert_from_kili_to_yolo_format` (`common.py`, lines 114-146).
`label = none` models Python `None`.  When `json_response[job_id]` is a whole
per-frame dict (a video-shaped response), `"annotations" in` it tests its job
keys, and iterating the inner dict would index strings, a `TypeError`;
both unreachable corners are modelled faithfully. -/
def convertFromKiliToYoloFormat (jobId : String) (label : Option Label)
    (categoryIds : List (String × JobCategory)) : Except PyErr (List YoloAnn) :=
  match label with
  | none => .ok []
  | some l =>
    match l.jsonResponse with
    | none => .ok []
    | some jr =>
      match lookupKey jr jobId with
      | none => .ok []
      | some (JRVal.job r) =>
        match r.annotations with
        | none => .ok []
        | some anns => convertAnns jobId categoryIds anns
      | some (JRVal.frame f) =>
        match lookupKey f "annotations" with
        | none => .ok []
        | some r2 =>
          match r2.annotations with
          | none => .ok []
          | some _ => .error .typeError

/-- `str.zfill` as used here: left-pad with zeros to the given width.  Every
use pads `str(idx + 1)` with `idx ≥ -1`, so the sign handling of Python's
`zfill` is never exercised. -/
def zfill (s : String) (w : Nat) : String :=
  if w ≤ s.length then s else String.mk (List.replicate (w - s.length) '0') ++ s

/-- The retention test of `LabelFrames.from_asset` (`common.py`, lines 51-58)
on the value found at key `str(idx)`: some considered job id is a key of the
frame dict, its value has an `"annotations"` key, and that list is truthy
(non-empty).  On a job-shaped value (a dict whose only possible key is
`"annotations"`) the chain `job_id in frame_asset and "annotations" in
frame_asset[job_id] and ...` always evaluates falsy, because the string
`"annotations"` is not an element of the annotations list. -/
def retainsFrame (jobIds : List String) (v : JRVal) : Bool :=
  match v with
  | .frame f =>
    jobIds.any (fun j =>
      match lookupKey f j with
      | some r =>
        match r.annotations with
        | some anns => !anns.isEmpty
        | none => false
      | none => false)
  | .job _ => false

/-- The frame dict stored for a retained index:
`{"latestLabel": {"jsonResponse": frame_asset}}`.  A job-shaped value is never
retained, so that branch is unreachable. -/
def wrapFrame : JRVal → Label
  | .frame f => ⟨some (f.map (fun p => (p.1, JRVal.job p.2)))⟩
  | .job _ => ⟨none⟩

/-- The `frames` dict built by the `for idx in range(number_of_frames)` loop
of `LabelFrames.from_asset`: the loop appends retained indices in increasing
order, which is exactly this `filterMap` over `range`. -/
def fromAssetKept (jr : JsonResp) (jobIds : List String) : List (Int × Label) :=
  (List.range jr.length).filterMap (fun idx =>
    match lookupKey jr (toString idx) with
    | some v =>
      if retainsFrame jobIds v then some (Int.ofNat idx, wrapFrame v) else none
    | none => none)

/-- `is_frame_group` after the loop: set as soon as some `str(idx)`,
`idx < number_of_frames`, is a key of the response. -/
def fromAssetIsGroup (jr : JsonResp) : Bool :=
  (List.range jr.length).any (fun idx => hasKey jr (toString idx))

/-- The `LabelFrames` class of `common.py`.  `frames` is the insertion-ordered
dict of retained frame index to the `latestLabel` of the stored frame dict
(the only field the rest of the code reads from it). -/
structure LabelFrames where
  frames : List (Int × Label)
  number_frames : Nat
  is_frame_group : Bool
  external_id : String
deriving DecidableEq, Repr

/-- `LabelFrames.from_asset` (`common.py`, lines 36-62): when no frame was
retained (no group detected, or every group frame empty for the considered
jobs) the dict falls back to `{-1: asset}`. -/
def LabelFrames.from_asset (asset : Asset) (jobIds : List String) : LabelFrames :=
  match asset.latestLabel.jsonResponse with
  | none => ⟨[(-1, asset.latestLabel)], 0, false, asset.externalId⟩
  | some jr =>
    let kept := fromAssetKept jr jobIds
    ⟨if kept.isEmpty then [(-1, asset.latestLabel)] else kept,
     jr.length, fromAssetIsGroup jr, asset.externalId⟩

/-- `LabelFrames.get_leading_zeros`: `len(str(self.number_frames))`. -/
def LabelFrames.get_leading_zeros (lf : LabelFrames) : Nat :=
  (toString lf.number_frames).length

/-- `LabelFrames.get_label_filename`:
`f"{external_id}_{str(idx + 1).zfill(leading_zeros)}"`. -/
def LabelFrames.get_label_filename (lf : LabelFrames) (idx : Int) : String :=
  lf.external_id ++ "_" ++ zfill (toString (idx + 1)) lf.get_leading_zeros

/-- The filename choice of `_process_asset` (`common.py`, lines 175-179). -/
def frameFilename (lf : LabelFrames) (idx : Int) : String :=
  if lf.is_frame_group then lf.get_label_filename idx else lf.external_id

/-- `is_asset_served_by_kili` (`tools.py`, lines 164-168):
`url.startswith(KILI_FILES)`.  The environment-derived `KILI_FILES` prefix is
an explicit parameter. -/
def is_asset_served_by_kili (kiliFiles : String) (url : String) : Bool :=
  List.isPrefixOf kiliFiles.data url.data

/-- First-occurrence deduplication; one concrete iteration order for the
Python set `set(map(lambda jc: jc.job_id, category_ids.values()))` (set
iteration order is unspecified; no theorem below depends on it). -/
def dedupFirst : List String → List String
  | [] => []
  | x :: xs => x :: (dedupFirst xs).filter (fun y => y != x)

/-- The job ids considered by `_process_asset` (`common.py`, line 166). -/
def jobIdsOf (categoryIds : List (String × JobCategory)) : List String :=
  dedupFirst (categoryIds.map (fun p => p.2.job_id))

/-- `_get_frame_labels` (`common.py`, lines 235-245): concatenate the
converted annotations of every considered job, first exception aborts. -/
def getFrameLabels (frame : Label) (jobIds : List String)
    (categoryIds : List (String × JobCategory)) : Except PyErr (List YoloAnn) :=
  match jobIds with
  | [] => .ok []
  | j :: rest =>
    match convertFromKiliToYoloFormat j (some frame) categoryIds with
    | .error e => .error e
    | .ok anns =>
      match getFrameLabels frame rest categoryIds with
      | .error e => .error e
      | .ok more => .ok (anns ++ more)

/-- The effective index of Python list indexing: negative indices wrap
around from the end. -/
def pythonIdx (xs : List String) (i : Int) : Int :=
  if i < 0 then (xs.length : Int) + i else i

/-- Python list indexing `xs[i]` with negative-index wraparound and
`IndexError` out of range. -/
def pythonGet (xs : List String) (i : Int) : Except PyErr String :=
  if pythonIdx xs i < 0 then .error .indexError
  else
    match xs[(pythonIdx xs i).toNat]? with
    | some u => .ok u
    | none => .error .indexError

/-- `content_frames[idx] if content_frames else asset["content"]`
(`common.py`, line 188). -/
def resolveUrl (contentFrames : List String) (asset : Asset) (idx : Int) :
    Except PyErr String :=
  if contentFrames.isEmpty then .ok asset.content else pythonGet contentFrames idx

/-- What one iteration of the frame loop of `_process_asset` (`common.py`,
lines 174-198) appends to the mutable lists: at most one video filename, one
label file, one download attempt (with its possible logged warning; a raised
`DownloadError` is caught and only logged), and one remote-reference row. -/
structure FrameDelta where
  videoName : Option String
  labelFile : Option (String × List YoloAnn)
  download : Option String
  warn : Option String
  remote : Option (List String)
deriving DecidableEq, Repr

/-- One iteration of the frame loop of `_process_asset`.  `downloadOk` is the
network oracle: whether the GET of a given URL succeeds.  An `.error` models
an exception propagating out of the loop (category lookup `KeyError`, list
`IndexError`); files already written before it are moot because the export
aborts. -/
def processFrame (kiliFiles : String) (downloadOk : String → Bool)
    (asset : Asset) (contentFrames : List String) (jobIds : List String)
    (categoryIds : List (String × JobCategory)) (lf : LabelFrames)
    (e : Int × Label) : Except PyErr FrameDelta :=
  let filename := frameFilename lf e.1
  let videoName := if lf.is_frame_group then some filename else none
  match getFrameLabels e.2 jobIds categoryIds with
  | .error er => .error er
  | .ok frameLabels =>
    if frameLabels.isEmpty then .ok ⟨videoName, none, none, none, none⟩
    else
      match resolveUrl contentFrames asset e.1 with
      | .error er => .error er
      | .ok contentFrame =>
        if is_asset_served_by_kili kiliFiles contentFrame then
          if !contentFrames.isEmpty && !lf.is_frame_group then
            .ok ⟨videoName, some (filename, frameLabels), some contentFrame,
              (if downloadOk contentFrame then none
               else some ("Error while downloading image " ++ asset.id)), none⟩
          else .ok ⟨videoName, some (filename, frameLabels), none, none, none⟩
        else
          .ok ⟨videoName, some (filename, frameLabels), none, none,
            some [asset.externalId, contentFrame, filename ++ ".txt"]⟩

/-- Sequential effectful map: first exception aborts, like a Python loop. -/
def mapExcept {α β : Type} (f : α → Except PyErr β) :
    List α → Except PyErr (List β)
  | [] => .ok []
  | a :: rest =>
    match f a with
    | .error e => .error e
    | .ok b =>
      match mapExcept f rest with
      | .error e => .error e
      | .ok bs => .ok (b :: bs)

/-- The observable outcome of `_process_asset` on one asset. -/
structure ProcessOut where
  remoteContent : List (List String)
  videoFilenames : List String
  labelFiles : List (String × List YoloAnn)
  downloadAttempts : List String
  warnings : List String
  cutVideoInvoked : Bool
deriving DecidableEq, Repr

/-- `_process_asset` (`common.py`, lines 156-213).  `contentFrames` is the
result of the external `get_content_frames_paths` collaborator (the per-frame
URL index); the trailing `cut_video` call is recorded as `cutVideoInvoked`
(its own effects are modelled separately by `cut_video` below). -/
def processAsset (kiliFiles : String) (downloadOk : String → Bool)
    (asset : Asset) (contentFrames : List String)
    (categoryIds : List (String × JobCategory)) : Except PyErr ProcessOut :=
  let jobIds := jobIdsOf categoryIds
  let lf := LabelFrames.from_asset asset jobIds
  match mapExcept
      (processFrame kiliFiles downloadOk asset contentFrames jobIds categoryIds lf)
      lf.frames with
  | .error e => .error e
  | .ok deltas =>
    .ok ⟨deltas.filterMap FrameDelta.remote,
         deltas.filterMap FrameDelta.videoName,
         deltas.filterMap FrameDelta.labelFile,
         deltas.filterMap FrameDelta.download,
         deltas.filterMap FrameDelta.warn,
         contentFrames.isEmpty && lf.is_frame_group
           && is_asset_served_by_kili kiliFiles asset.content⟩

/-- The observable outcome of `cut_video` when it returns. -/
structure CutVideoOut where
  warnings : List String
  copiedFrames : List String
deriving DecidableEq, Repr

/-- `cut_video` (`video.py`, lines 15-87) with its external collaborators as
explicit outcomes: `downloadOk` is whether the raw-video GET response was ok
(a falsy response is only logged, the function continues with whatever bytes
were received); `metaFramerate` is `jsonMetadata.processingParameters.
framesPlayedPerSecond` when recorded; `probeResult` the ffmpeg frame-rate
probe (its error is logged and then re-raised); `extractResult` the ffmpeg
frame extraction run (its error is logged and then re-raised);
`extractedIndices` the indices for which `{idx}.jpg` exists afterwards.
On success the retained frames whose image exists are copied out under
`f"{orig_filename}_{str(idx + 1).zfill(leading_zeros)}.jpg"`. -/
def cut_video (downloadOk : Bool) (metaFramerate : Option ℚ)
    (probeResult : Except PyErr ℚ) (extractResult : Except PyErr Unit)
    (extractedIndices : List Int) (frames : List (Int × Label))
    (origFilename : String) (leadingZeros : Nat) : Except PyErr CutVideoOut :=
  let warns : List String :=
    if downloadOk then [] else ["Error while downloading video of asset"]
  match (match metaFramerate with
         | some f => Except.ok f
         | none => probeResult) with
  | .error e => .error e
  | .ok _ =>
    match extractResult with
    | .error e => .error e
    | .ok _ =>
      .ok ⟨warns,
        frames.filterMap (fun p =>
          if extractedIndices.contains p.1 then
            some (origFilename ++ "_" ++ zfill (toString (p.1 + 1)) leadingZeros
              ++ ".jpg")
          else none)⟩

/-- One job of the project interface, restricted to the keys the category
indexers read: `mlTask` (optional), `tools`, the truthiness of the optional
`isModel` flag, and the keys of `content.categories` in declaration order
(`job.get("content", {}).get("categories", {})` yields `[]` when either key
is absent). -/
structure Job where
  mlTask : Option String
  tools : List String
  isModel : Bool
  categories : List String
deriving DecidableEq, Repr

/-- Negation of the `continue` filter shared by `_get_merged_categories`
(`merge.py`, lines 105-111) and `_get_categories_by_job` (`split.py`,
lines 101-107). -/
def jobQualifies (mlTask : String) (tool : String) (j : Job) : Bool :=
  (j.mlTask == some mlTask) && j.tools.contains tool && !j.isModel

/-- The inner `for category in ...` loop of both indexers: assign consecutive
ids starting at `n` in declaration order (the Python mutable counter). -/
def catsWithIds (jobId : String) : List String → Nat → List (String × JobCategory)
  | [], _ => []
  | c :: rest, n =>
    (getCategoryFullName jobId c, ⟨c, n, jobId⟩) :: catsWithIds jobId rest (n + 1)

/-- `_get_merged_categories` with the running global counter made explicit. -/
def getMergedCategoriesAux (mlTask tool : String) :
    List (String × Job) → Nat → List (String × JobCategory)
  | [], _ => []
  | (jobId, j) :: rest, n =>
    if jobQualifies mlTask tool j then
      catsWithIds jobId j.categories n
        ++ getMergedCategoriesAux mlTask tool rest (n + j.categories.length)
    else getMergedCategoriesAux mlTask tool rest n

/-- `YoloMergeExporter._get_merged_categories` (`merge.py`, lines 97-117):
one globally incrementing counter over all qualifying jobs. -/
def getMergedCategories (iface : List (String × Job)) (mlTask tool : String) :
    List (String × JobCategory) :=
  getMergedCategoriesAux mlTask tool iface 0

/-- `YoloSplitExporter._get_categories_by_job` (`split.py`, lines 94-114):
the counter restarts at 0 for each qualifying job (`enumerate`). -/
def getCategoriesByJob (iface : List (String × Job)) (mlTask tool : String) :
    List (String × List (String × JobCategory)) :=
  iface.filterMap (fun p =>
    if jobQualifies mlTask tool p.2 then
      some (p.1, catsWithIds p.1 p.2.categories 0)
    else none)

/-- The export format selector (`AnnotationFormat.YoloV4` / `.YoloV5` of
`kili.orm`, whose module is not part of the staged sources; only these two
variants are compared against). -/
inductive AnnotationFormat where
  | yoloV4
  | yoloV5
deriving DecidableEq, Repr

/-- Content of `classes.txt` written by `_write_class_file` (`common.py`,
lines 222-225): the concatenation, in assignment order, of
`f"{id} {category_name}\n"`. -/
def classFileV4Content (categoryIds : List (String × JobCategory)) : String :=
  String.join (categoryIds.map (fun p =>
    toString p.2.id ++ " " ++ p.2.category_name ++ "\n"))

/-- Content of `data.yaml` written by `_write_class_file` (`common.py`,
lines 226-232): the categories string drops its trailing two characters
(`categories[:-2]`, the final comma-space; on the empty string it stays
empty). -/
def classFileV5Content (categoryIds : List (String × JobCategory)) : String :=
  let categories := String.join (categoryIds.map (fun p =>
    "'" ++ p.2.category_name ++ "', "))
  "nc: " ++ toString categoryIds.length ++ "\n"
    ++ "names: [" ++ categories.dropRight 2 ++ "]\n"

/-- `_write_class_file` (`common.py`, lines 216-232) as the list of
(filename, content) pairs it writes into the folder. -/
def writeClassFile (categoryIds : List (String × JobCategory))
    (labelFormat : AnnotationFormat) : List (String × String) :=
  (if labelFormat = AnnotationFormat.yoloV4 then
    [("classes.txt", classFileV4Content categoryIds)] else [])
  ++ (if labelFormat = AnnotationFormat.yoloV5 then
    [("data.yaml", classFileV5Content categoryIds)] else [])

/-- Content of `remote_assets.csv` (`_write_remote_content_file`,
`common.py`, lines 330-339): the header row, then the recorded rows. -/
def remoteCsvContent (rows : List (List String)) : List (List String) :=
  ["external id", "url", "label file"] :: rows

/-- The artifacts of one `write_labels_into_single_folder` run: the class
file(s), the label files of all assets in order, `video_meta.json` as an
association list (written only when some asset produced video filenames), and
the full `remote_assets.csv` content (written only when some remote row was
recorded). -/
structure FolderOut where
  classFiles : List (String × String)
  labelFiles : List (String × List YoloAnn)
  videoMeta : Option (List (String × List String))
  remoteCsv : Option (List (List String))
deriving DecidableEq, Repr

/-- The asset loop of `write_labels_into_single_folder` (`common.py`, lines
262-268): accumulated remote rows, video-metadata entries and label files.
Each asset comes paired with its externally resolved `content_frames` list. -/
def foldAssets (kiliFiles : String) (downloadOk : String → Bool)
    (categoryIds : List (String × JobCategory)) :
    List (Asset × List String) →
    Except PyErr (List (List String) × List (String × List String)
      × List (String × List YoloAnn))
  | [] => .ok ([], [], [])
  | (a, cf) :: rest =>
    match processAsset kiliFiles downloadOk a cf categoryIds with
    | .error e => .error e
    | .ok o =>
      match foldAssets kiliFiles downloadOk categoryIds rest with
      | .error e => .error e
      | .ok (rc, vm, lfs) =>
        .ok (o.remoteContent ++ rc,
          (if o.videoFilenames.isEmpty then vm
           else (a.externalId, o.videoFilenames) :: vm),
          o.labelFiles ++ lfs)

/-- `write_labels_into_single_folder` (`common.py`, lines 248-274). -/
def writeLabelsIntoSingleFolder (kiliFiles : String)
    (downloadOk : String → Bool) (assets : List (Asset × List String))
    (categoryIds : List (String × JobCategory))
    (labelFormat : AnnotationFormat) : Except PyErr FolderOut :=
  match foldAssets kiliFiles downloadOk categoryIds assets with
  | .error e => .error e
  | .ok (rc, vm, lfs) =>
    .ok ⟨writeClassFile categoryIds labelFormat, lfs,
      (if vm.isEmpty then none else some vm),
      (if rc.isEmpty then none else some (remoteCsvContent rc))⟩

/-- The job loop of `_write_jobs_labels_into_split_folders` (`split.py`,
lines 116-143), threading the content of the one `remote_assets.csv` in the
shared `images/` folder: every job invokes `write_labels_into_single_folder`
with the same `images_folder`, and `_write_remote_content_file` opens that
file in mode `"w"`, so a job that recorded remote rows overwrites it. -/
def writeJobsLabelsAux (kiliFiles : String) (downloadOk : String → Bool)
    (assets : List (Asset × List String)) (labelFormat : AnnotationFormat) :
    List (String × List (String × JobCategory)) →
    Option (List (List String)) →
    Except PyErr (List (String × FolderOut) × Option (List (List String)))
  | [], sharedCsv => .ok ([], sharedCsv)
  | (jobId, cats) :: rest, sharedCsv =>
    match writeLabelsIntoSingleFolder kiliFiles downloadOk assets cats
        labelFormat with
    | .error e => .error e
    | .ok out =>
      match writeJobsLabelsAux kiliFiles downloadOk assets labelFormat rest
          (match out.remoteCsv with
           | some rows => some rows
           | none => sharedCsv) with
      | .error e => .error e
      | .ok (outs, finalCsv) => .ok ((jobId, out) :: outs, finalCsv)

/-- `YoloSplitExporter._write_jobs_labels_into_split_folders`: per-job folder
outputs in job order, and the final content of the shared
`remote_assets.csv` (none when no job ever wrote it). -/
def writeJobsLabelsIntoSplitFolders (kiliFiles : String)
    (downloadOk : String → Bool) (assets : List (Asset × List String))
    (categoriesByJob : List (String × List (String × JobCategory)))
    (labelFormat : AnnotationFormat) :
    Except PyErr (List (String × FolderOut) × Option (List (List String))) :=
  writeJobsLabelsAux kiliFiles downloadOk assets labelFormat categoriesByJob none

/-- A frame delta with its logged warning dropped: everything the download
oracle cannot influence. -/
def stripDelta (d : FrameDelta) : FrameDelta :=
  ⟨d.videoName, d.labelFile, d.download, none, d.remote⟩

/-- A process outcome with its logged warnings dropped. -/
def stripWarnings (o : ProcessOut) : ProcessOut :=
  ⟨o.remoteContent, o.videoFilenames, o.labelFiles, o.downloadAttempts, [],
   o.cutVideoInvoked⟩

/-- The normalized vertices of the repository's fixture
(`test/services/test_conversion.py`, `job_0`). -/
def fixtureVertices : List Vertex :=
  [⟨0.16504140348233334, 0.7986938935103378⟩,
   ⟨0.16504140348233334, 0.2605618833516984⟩,
   ⟨0.8377886490672706, 0.2605618833516984⟩,
   ⟨0.8377886490672706, 0.7986938935103378⟩]

/-- The fixture's one rectangle annotation for category `OBJECT_A`. -/
def fixtureAnn : KiliAnn := ⟨["OBJECT_A"], some [⟨some fixtureVertices⟩]⟩

/-- The fixture's label: `jsonResponse = {"JOB_0": {"annotations": [...]}}`. -/
def fixtureLabel : Label :=
  ⟨some [("JOB_0", JRVal.job ⟨some [fixtureAnn]⟩)]⟩

/-- The fixture's category scope `{JOB_0__OBJECT_A: 0, JOB_0__OBJECT_B: 1}`. -/
def fixtureCategoryIds : List (String × JobCategory) :=
  [("JOB_0__OBJECT_A", ⟨"OBJECT_A", 0, "JOB_0"⟩),
   ("JOB_0__OBJECT_B", ⟨"OBJECT_B", 1, "JOB_0"⟩)]

/-- A platform prefix for concrete runs; the fixture URLs do not start with
it. -/
def kpFix : String := "https://kili/files"

/-- The all-successful download oracle. -/
def dOkTrue : String → Bool := fun _ => true

/-- An annotation with a full-frame bounding box, category `OBJECT_A`. -/
def boxAnn : KiliAnn := ⟨["OBJECT_A"], some [⟨some [⟨0, 0⟩, ⟨1, 1⟩]⟩]⟩

/-- An annotation with category `OBJECT_A` but no `boundingPoly` key: it is
counted by the frame-retention test yet converts to nothing. -/
def noPolyAnn : KiliAnn := ⟨["OBJECT_A"], none⟩

/-- A two-frame video asset: frame 0 converts to one record, frame 1 is
retained (non-empty raw annotations) but converts to nothing. -/
def videoAsset : Asset :=
  ⟨"idv", "vid", "https://remote/vid.mp4",
   ⟨some [("0", JRVal.frame [("JOB_0", ⟨some [boxAnn]⟩)]),
          ("1", JRVal.frame [("JOB_0", ⟨some [noPolyAnn]⟩)])]⟩⟩

/-- A single-frame asset annotated for `JOB_0` only, hosted remotely. -/
def assetA : Asset :=
  ⟨"idA", "a1", "https://remote/a1.jpg",
   ⟨some [("JOB_0", JRVal.job ⟨some [boxAnn]⟩)]⟩⟩

/-- An annotation with a full-frame bounding box, category `OBJECT_C`. -/
def boxAnnC : KiliAnn := ⟨["OBJECT_C"], some [⟨some [⟨0, 0⟩, ⟨1, 1⟩]⟩]⟩

/-- A single-frame asset annotated for `JOB_1` only, hosted remotely. -/
def assetB : Asset :=
  ⟨"idB", "b1", "https://remote/b1.jpg",
   ⟨some [("JOB_1", JRVal.job ⟨some [boxAnnC]⟩)]⟩⟩

/-- The category scope of the second split job. -/
def catIdsJob1 : List (String × JobCategory) :=
  [("JOB_1__OBJECT_C", ⟨"OBJECT_C", 0, "JOB_1"⟩)]

/-- A split-mode category mapping with two qualifying jobs. -/
def catsByJobFix : List (String × List (String × JobCategory)) :=
  [("JOB_0", fixtureCategoryIds), ("JOB_1", catIdsJob1)]

/-- The two fixture assets, neither with per-frame URLs. -/
def assetsFix : List (Asset × List String) := [(assetA, []), (assetB, [])]

/-- A qualifying object-detection job with two categories (the fixture
interface's `JOB_0`). -/
def jobFix0 : Job :=
  ⟨some "OBJECT_DETECTION", ["rectangle"], false, ["OBJECT_A", "OBJECT_B"]⟩

/-- A qualifying object-detection job with one category. -/
def jobFix1 : Job := ⟨some "OBJECT_DETECTION", ["rectangle"], false, ["OBJECT_C"]⟩

/-- A job excluded from export: it is model-predicted. -/
def jobFixModel : Job :=
  ⟨some "OBJECT_DETECTION", ["rectangle"], true, ["OBJECT_Z"]⟩

/-- A job excluded from export: classification, no rectangle tool. -/
def jobFixClassif : Job := ⟨some "CLASSIFICATION", [], false, ["YES", "NO"]⟩

/-- A concrete project interface with two qualifying and two non-qualifying
jobs. -/
def ifaceFix : List (String × Job) :=
  [("JOB_0", jobFix0), ("JOB_C", jobFixClassif), ("JOB_1", jobFix1),

   ("JOB_M", jobFixModel)]
/-- Feed a successful result to an optional projection; an error yields
nothing (used to state what a loop's collected effects are). -/
def okThen {B C : Type} (g : B → Option C) (r : Except PyErr B) : Option C :=
  match r with
  | .ok b => g b
  | .error _ => none

/-- `qMin x xs` is an element of `x :: xs` and a lower bound of it: it is the
minimum over all listed values, as `min()` of Python. -/
theorem qMin_spec (x : ℚ) (xs : List ℚ) :
    qMin x xs ∈ x :: xs ∧ ∀ y ∈ x :: xs, qMin x xs ≤ y := by
  induction xs generalizing x with
  | nil => simp [qMin]
  | cons a as ih =>
    have h := ih (min x a)
    have hstep : qMin x (a :: as) = qMin (min x a) as := rfl
    constructor
    · rw [hstep]
      rcases List.mem_cons.mp h.1 with h1 | h1
      · rcases min_choice x a with hc | hc
        · rw [h1.trans hc]
          simp
        · rw [h1.trans hc]
          simp
      · simp [List.mem_cons, h1]
    · intro y hy
      rw [hstep]
      rcases List.mem_cons.mp hy with h1 | h1
      · rw [h1]
        exact le_trans (h.2 (min x a) (List.mem_cons_self _ _)) (min_le_left _ _)
      · rcases List.mem_cons.mp h1 with h2 | h2
        · rw [h2]
          exact le_trans (h.2 (min x a) (List.mem_cons_self _ _))
            (min_le_right _ _)
        · exact h.2 y (List.mem_cons_of_mem _ h2)

/-- `qMax x xs` is an element of `x :: xs` and an upper bound of it. -/
theorem qMax_spec (x : ℚ) (xs : List ℚ) :
    qMax x xs ∈ x :: xs ∧ ∀ y ∈ x :: xs, y ≤ qMax x xs := by
  induction xs generalizing x with
  | nil => simp [qMax]
  | cons a as ih =>
    have h := ih (max x a)
    have hstep : qMax x (a :: as) = qMax (max x a) as := rfl
    constructor
    · rw [hstep]
      rcases List.mem_cons.mp h.1 with h1 | h1
      · rcases max_choice x a with hc | hc
        · rw [h1.trans hc]
          simp
        · rw [h1.trans hc]
          simp
      · simp [List.mem_cons, h1]
    · intro y hy
      rw [hstep]
      rcases List.mem_cons.mp hy with h1 | h1
      · rw [h1]
        exact le_trans (le_max_left _ _) (h.2 (max x a) (List.mem_cons_self _ _))
      · rcases List.mem_cons.mp h1 with h2 | h2
        · rw [h2]
          exact le_trans (le_max_right _ _)
            (h.2 (max x a) (List.mem_cons_self _ _))
        · exact h.2 y (List.mem_cons_of_mem _ h2)

/-- A successful `mapExcept` run relates inputs to outputs pointwise. -/
theorem mapExcept_ok {α β : Type} {f : α → Except PyErr β} :
    ∀ {l : List α} {res : List β}, mapExcept f l = .ok res →
      List.Forall₂ (fun a b => f a = Except.ok b) l res := by
  intro l
  induction l with
  | nil =>
    intro res h
    simp [mapExcept] at h
    simp [← h]
  | cons a rest ih =>
    intro res h
    simp only [mapExcept] at h
    cases hfa : f a with
    | error e => rw [hfa] at h; exact absurd h (by simp)
    | ok b =>
      rw [hfa] at h
      cases hrest : mapExcept f rest with
      | error e => rw [hrest] at h; exact absurd h (by simp)
      | ok bs =>
        rw [hrest] at h
        simp at h
        rw [← h]
        exact List.Forall₂.cons hfa (ih hrest)

/-- Collapse a pointwise successful run through a `filterMap` on its
results. -/
theorem filterMap_of_forall2 {α β γ : Type} {f : α → Except PyErr β}
    {g : β → Option γ} :
    ∀ {l : List α} {res : List β},
      List.Forall₂ (fun a b => f a = Except.ok b) l res →
      res.filterMap g = l.filterMap (fun a => okThen g (f a)) := by
  intro l res h
  induction h with
  | nil => rfl
  | @cons a b l2 res2 hab _ ih =>
    simp only [List.filterMap_cons, hab, ih, okThen]

/-- Every left element of a `Forall₂` run has a related right element. -/
theorem forall2_mem_left {α β : Type} {R : α → β → Prop} :
    ∀ {l : List α} {res : List β}, List.Forall₂ R l res →
      ∀ a ∈ l, ∃ b, R a b := by
  intro l res h
  induction h with
  | nil => simp
  | @cons a b l2 res2 hab _ ih =>
    intro x hx
    rcases List.mem_cons.mp hx with rfl | hx2
    · exact ⟨b, hab⟩
    · exact ih x hx2

/-- A value produced by Python list indexing is an element of the list. -/
theorem pythonGet_mem {xs : List String} {i : Int} {u : String}
    (h : pythonGet xs i = .ok u) : u ∈ xs := by
  unfold pythonGet at h
  split at h
  · exact absurd h (by simp)
  · split at h
    · next hget =>
      simp at h
      rw [← h]
      exact List.getElem?_mem hget
    · exact absurd h (by simp)

/-- A URL resolved for a frame is the asset's `content` (when no per-frame
URLs exist) or one of the per-frame URLs. -/
theorem resolveUrl_cases {cf : List String} {asset : Asset} {i : Int}
    {u : String} (h : resolveUrl cf asset i = .ok u) :
    u = asset.content ∨ u ∈ cf := by
  unfold resolveUrl at h
  split at h
  · simp at h
    exact Or.inl h.symm
  · exact Or.inr (pythonGet_mem h)

/-- Every successfully processed frame records its video filename exactly
when the asset is a frame group, before any annotation emptiness check. -/
theorem processFrame_videoName {kp : String} {d : String → Bool}
    {asset : Asset} {cf jobIds : List String}
    {c : List (String × JobCategory)} {lf : LabelFrames} {e : Int × Label}
    {dl : FrameDelta}
    (h : processFrame kp d asset cf jobIds c lf e = .ok dl) :
    dl.videoName
      = if lf.is_frame_group then some (frameFilename lf e.1) else none := by
  simp only [processFrame] at h
  split at h
  · exact Except.noConfusion h
  split at h
  · cases h
    rfl
  split at h
  · exact Except.noConfusion h
  split at h
  · split at h
    · cases h
      rfl
    · cases h
      rfl
  · cases h
    rfl

/-- A successfully processed frame writes a label file only when its
converted annotation union is non-empty, and then under its frame
filename. -/
theorem processFrame_labelFile {kp : String} {d : String → Bool}
    {asset : Asset} {cf jobIds : List String}
    {c : List (String × JobCategory)} {lf : LabelFrames} {e : Int × Label}
    {dl : FrameDelta}
    (h : processFrame kp d asset cf jobIds c lf e = .ok dl) :
    dl.labelFile = none ∨
      ∃ ls, getFrameLabels e.2 jobIds c = .ok ls ∧ ls ≠ [] ∧
        dl.labelFile = some (frameFilename lf e.1, ls) := by
  simp only [processFrame] at h
  split at h
  · exact Except.noConfusion h
  next ls hg =>
    split at h
    next hemp =>
      cases h
      exact Or.inl rfl
    next hemp =>
      split at h
      · exact Except.noConfusion h
      split at h
      · split at h
        · cases h
          exact Or.inr ⟨ls, hg, by simpa using hemp, rfl⟩
        · cases h
          exact Or.inr ⟨ls, hg, by simpa using hemp, rfl⟩
      · cases h
        exact Or.inr ⟨ls, hg, by simpa using hemp, rfl⟩

/-- On an asset none of whose candidate URLs is platform-hosted, a processed
frame never attempts a download, and records a remote row exactly when its
converted annotation union is non-empty. -/
theorem processFrame_unserved {kp : String} {d : String → Bool}
    {asset : Asset} {cf jobIds : List String}
    {c : List (String × JobCategory)} {lf : LabelFrames} {e : Int × Label}
    {dl : FrameDelta}
    (ha : is_asset_served_by_kili kp asset.content = false)
    (hcf : ∀ u ∈ cf, is_asset_served_by_kili kp u = false)
    (h : processFrame kp d asset cf jobIds c lf e = .ok dl) :
    dl.download = none ∧
      dl.remote = (match getFrameLabels e.2 jobIds c,
          resolveUrl cf asset e.1 with
        | .ok ls, .ok u =>
          if ls.isEmpty then none
          else some [asset.externalId, u, frameFilename lf e.1 ++ ".txt"]
        | _, _ => none) := by
  cases hg : getFrameLabels e.2 jobIds c with
  | error er =>
    simp only [processFrame, hg] at h
    exact Except.noConfusion h
  | ok ls =>
    cases hr : resolveUrl cf asset e.1 with
    | error er =>
      simp only [processFrame, hg, hr] at h
      by_cases hemp : ls.isEmpty
      · simp only [hemp, if_true] at h
        cases h
        exact ⟨rfl, rfl⟩
      · rw [if_neg hemp] at h
        exact Except.noConfusion h
    | ok u =>
      have hu : is_asset_served_by_kili kp u = false := by
        rcases resolveUrl_cases hr with h1 | h1
        · rw [h1]
          exact ha
        · exact hcf u h1
      simp only [processFrame, hg, hr] at h
      by_cases hemp : ls.isEmpty
      · simp only [hemp, if_true] at h
        cases h
        exact ⟨rfl, by simp [hemp]⟩
      · rw [if_neg hemp] at h
        rw [hu] at h
        simp only [Bool.false_eq_true, if_false] at h
        cases h
        exact ⟨rfl, by simp [hemp]⟩

/-- The download oracle influences nothing but the logged warning of a
processed frame. -/
theorem processFrame_strip (kp : String) (d1 d2 : String → Bool)
    (asset : Asset) (cf jobIds : List String)
    (c : List (String × JobCategory)) (lf : LabelFrames) (e : Int × Label) :
    (processFrame kp d1 asset cf jobIds c lf e).map stripDelta
      = (processFrame kp d2 asset cf jobIds c lf e).map stripDelta := by
  simp only [processFrame]
  split
  · rfl
  split
  · rfl
  split
  · rfl
  split
  · split
    · rfl
    · rfl
  · rfl

/-- Runs that agree pointwise up to `g` agree up to `g` as wholes. -/
theorem mapExcept_congr {α β : Type} {f f2 : α → Except PyErr β} {g : β → β}
    (hf : ∀ a, (f a).map g = (f2 a).map g) :
    ∀ (l : List α),
      (mapExcept f l).map (List.map g) = (mapExcept f2 l).map (List.map g) := by
  intro l
  induction l with
  | nil => rfl
  | cons a rest ih =>
    simp only [mapExcept]
    have h1 := hf a
    cases hfa : f a with
    | error e =>
      cases hfa2 : f2 a with
      | error e2 =>
        rw [hfa, hfa2] at h1
        simp [Except.map] at h1
        simp [Except.map, h1]
      | ok b2 =>
        rw [hfa, hfa2] at h1
        simp [Except.map] at h1
    | ok b =>
      cases hfa2 : f2 a with
      | error e2 =>
        rw [hfa, hfa2] at h1
        simp [Except.map] at h1
      | ok b2 =>
        rw [hfa, hfa2] at h1
        simp only [Except.map] at h1
        cases hrest : mapExcept f rest with
        | error e =>
          cases hrest2 : mapExcept f2 rest with
          | error e2 =>
            rw [hrest, hrest2] at ih
            simp [Except.map] at ih
            simp [Except.map, ih]
          | ok bs2 =>
            rw [hrest, hrest2] at ih
            simp [Except.map] at ih
        | ok bs =>
          cases hrest2 : mapExcept f2 rest with
          | error e2 =>
            rw [hrest, hrest2] at ih
            simp [Except.map] at ih
          | ok bs2 =>
            rw [hrest, hrest2] at ih
            simp only [Except.map] at ih
            simp only [Except.map]
            simp at h1 ih
            simp [h1, ih]

/-- A successful `_process_asset` run is the per-frame deltas assembled:
every retained frame processed successfully, and each output component is
the `filterMap` of the corresponding delta component, with the `cut_video`
gate exactly as in the trailing `if` of the source. -/
theorem processAsset_ok_char {kp : String} {d : String → Bool} {asset : Asset}
    {cf : List String} {c : List (String × JobCategory)} {o : ProcessOut}
    (h : processAsset kp d asset cf c = .ok o) :
    (∀ e ∈ (LabelFrames.from_asset asset (jobIdsOf c)).frames,
      ∃ dl, processFrame kp d asset cf (jobIdsOf c) c
        (LabelFrames.from_asset asset (jobIdsOf c)) e = .ok dl)
    ∧ o.remoteContent
      = (LabelFrames.from_asset asset (jobIdsOf c)).frames.filterMap (fun e =>
          okThen FrameDelta.remote (processFrame kp d asset cf (jobIdsOf c) c
            (LabelFrames.from_asset asset (jobIdsOf c)) e))
    ∧ o.videoFilenames
      = (LabelFrames.from_asset asset (jobIdsOf c)).frames.filterMap (fun e =>
          okThen FrameDelta.videoName (processFrame kp d asset cf (jobIdsOf c) c
            (LabelFrames.from_asset asset (jobIdsOf c)) e))
    ∧ o.labelFiles
      = (LabelFrames.from_asset asset (jobIdsOf c)).frames.filterMap (fun e =>
          okThen FrameDelta.labelFile (processFrame kp d asset cf (jobIdsOf c) c
            (LabelFrames.from_asset asset (jobIdsOf c)) e))
    ∧ o.downloadAttempts
      = (LabelFrames.from_asset asset (jobIdsOf c)).frames.filterMap (fun e =>
          okThen FrameDelta.download (processFrame kp d asset cf (jobIdsOf c) c
            (LabelFrames.from_asset asset (jobIdsOf c)) e))
    ∧ o.cutVideoInvoked
      = (cf.isEmpty && (LabelFrames.from_asset asset (jobIdsOf c)).is_frame_group
          && is_asset_served_by_kili kp asset.content) := by
  simp only [processAsset] at h
  cases hm : mapExcept
      (processFrame kp d asset cf (jobIdsOf c) c
        (LabelFrames.from_asset asset (jobIdsOf c)))
      (LabelFrames.from_asset asset (jobIdsOf c)).frames with
  | error e =>
    rw [hm] at h
    exact Except.noConfusion h
  | ok deltas =>
    rw [hm] at h
    cases h
    have hf := mapExcept_ok hm
    dsimp only
    exact ⟨fun e he => forall2_mem_left hf e he,
      filterMap_of_forall2 hf, filterMap_of_forall2 hf,
      filterMap_of_forall2 hf, filterMap_of_forall2 hf, rfl⟩

/-- The download oracle influences nothing but the logged warnings of a
whole `_process_asset` run: a failed image download is logged and skipped. -/
theorem processAsset_strip (kp : String) (d1 d2 : String → Bool)
    (asset : Asset) (cf : List String) (c : List (String × JobCategory)) :
    (processAsset kp d1 asset cf c).map stripWarnings
      = (processAsset kp d2 asset cf c).map stripWarnings := by
  have hcong := mapExcept_congr
    (fun e => processFrame_strip kp d1 d2 asset cf (jobIdsOf c) c
      (LabelFrames.from_asset asset (jobIdsOf c)) e)
    (LabelFrames.from_asset asset (jobIdsOf c)).frames
  simp only [processAsset]
  cases hm1 : mapExcept
      (processFrame kp d1 asset cf (jobIdsOf c) c
        (LabelFrames.from_asset asset (jobIdsOf c)))
      (LabelFrames.from_asset asset (jobIdsOf c)).frames with
  | error e1 =>
    cases hm2 : mapExcept
        (processFrame kp d2 asset cf (jobIdsOf c) c
          (LabelFrames.from_asset asset (jobIdsOf c)))
        (LabelFrames.from_asset asset (jobIdsOf c)).frames with
    | error e2 =>
      rw [hm1, hm2] at hcong
      simp [Except.map] at hcong
      simp [Except.map, hcong]
    | ok ds2 =>
      rw [hm1, hm2] at hcong
      simp [Except.map] at hcong
  | ok ds1 =>
    cases hm2 : mapExcept
        (processFrame kp d2 asset cf (jobIdsOf c) c
          (LabelFrames.from_asset asset (jobIdsOf c)))
        (LabelFrames.from_asset asset (jobIdsOf c)).frames with
    | error e2 =>
      rw [hm1, hm2] at hcong
      simp [Except.map] at hcong
    | ok ds2 =>
      rw [hm1, hm2] at hcong
      simp only [Except.map] at hcong
      simp only [Except.ok.injEq] at hcong
      have key : ∀ {γ : Type} (p : FrameDelta → Option γ),
          (∀ x, p (stripDelta x) = p x) →
          ds1.filterMap p = ds2.filterMap p := by
        intro γ p hp
        have e1 : ds1.filterMap p = (ds1.map stripDelta).filterMap p := by
          rw [List.filterMap_map]
          congr 1
          funext x
          exact (hp x).symm
        have e2 : ds2.filterMap p = (ds2.map stripDelta).filterMap p := by
          rw [List.filterMap_map]
          congr 1
          funext x
          exact (hp x).symm
        rw [e1, e2, hcong]
      simp only [Except.map, stripWarnings, Except.ok.injEq,
        ProcessOut.mk.injEq]
      refine ⟨?_, ?_, ?_, ?_, trivial, trivial⟩
      · exact key FrameDelta.remote (fun x => rfl)
      · exact key FrameDelta.videoName (fun x => rfl)
      · exact key FrameDelta.labelFile (fun x => rfl)
      · exact key FrameDelta.download (fun x => rfl)

/-- The retention test unfolded: only a frame-shaped value can be retained,
and exactly when some considered job id maps to a response whose
`annotations` key holds a non-empty list. -/
theorem retainsFrame_iff (jobIds : List String) (v : JRVal) :
    retainsFrame jobIds v = true ↔
      ∃ f, v = JRVal.frame f ∧ ∃ j ∈ jobIds, ∃ r, lookupKey f j = some r ∧
        ∃ anns, r.annotations = some anns ∧ anns ≠ [] := by
  cases v with
  | job r => simp [retainsFrame]
  | frame f =>
    simp only [retainsFrame, List.any_eq_true]
    constructor
    · rintro ⟨j, hj, hcond⟩
      refine ⟨f, rfl, j, hj, ?_⟩
      cases hl : lookupKey f j with
      | none =>
        simp only [hl] at hcond
        exact absurd hcond (by simp)
      | some r =>
        simp only [hl] at hcond
        cases hann : r.annotations with
        | none =>
          simp only [hann] at hcond
          exact absurd hcond (by simp)
        | some anns =>
          simp only [hann] at hcond
          simp at hcond
          exact ⟨r, rfl, anns, hann, by simpa using hcond⟩
    · rintro ⟨f2, hf2, j, hj, r, hr, anns, hann, hne⟩
      cases hf2
      exact ⟨j, hj, by simp [hr, hann, hne]⟩

/-- Membership in the retained-frames list built by
`LabelFrames.from_asset`. -/
theorem mem_fromAssetKept {jr : JsonResp} {jobIds : List String}
    {p : Int × Label} :
    p ∈ fromAssetKept jr jobIds ↔
      ∃ idx : Nat, idx < jr.length ∧ ∃ v,
        lookupKey jr (toString idx) = some v ∧
        retainsFrame jobIds v = true ∧ p = ((idx : Int), wrapFrame v) := by
  unfold fromAssetKept
  rw [List.mem_filterMap]
  constructor
  · rintro ⟨i, hi, hfn⟩
    rw [List.mem_range] at hi
    cases hl : lookupKey jr (toString i) with
    | none =>
      simp only [hl] at hfn
      exact Option.noConfusion hfn
    | some v =>
      simp only [hl] at hfn
      by_cases hrf : retainsFrame jobIds v
      · rw [if_pos hrf] at hfn
        simp at hfn
        exact ⟨i, hi, v, hl, hrf, hfn.symm⟩
      · rw [if_neg hrf] at hfn
        simp at hfn
  · rintro ⟨idx, hn, v, hl, hrf, rfl⟩
    refine ⟨idx, List.mem_range.mpr hn, ?_⟩
    simp only [hl]
    rw [if_pos hrf]
    rfl

/-- Every asset of a successful folder run was processed successfully, its
remote rows all land in the accumulated remote content, and its video
filenames (when any) land in the accumulated video metadata. -/
theorem foldAssets_mem {kp : String} {d : String → Bool}
    {c : List (String × JobCategory)} :
    ∀ {assets : List (Asset × List String)} {a : Asset} {cf : List String}
      {rc : List (List String)} {vm : List (String × List String)}
      {lfs : List (String × List YoloAnn)},
      (a, cf) ∈ assets →
      foldAssets kp d c assets = .ok (rc, vm, lfs) →
      ∃ o, processAsset kp d a cf c = .ok o ∧
        (∀ row ∈ o.remoteContent, row ∈ rc) ∧
        (o.videoFilenames ≠ [] → (a.externalId, o.videoFilenames) ∈ vm) := by
  intro assets
  induction assets with
  | nil =>
    intro a cf rc vm lfs hmem
    simp at hmem
  | cons hd rest ih =>
    intro a cf rc vm lfs hmem hfold
    obtain ⟨a0, cf0⟩ := hd
    simp only [foldAssets] at hfold
    cases hp : processAsset kp d a0 cf0 c with
    | error e =>
      rw [hp] at hfold
      exact Except.noConfusion hfold
    | ok o0 =>
      rw [hp] at hfold
      cases hrest : foldAssets kp d c rest with
      | error e =>
        rw [hrest] at hfold
        exact Except.noConfusion hfold
      | ok triple =>
        obtain ⟨rc2, vm2, lfs2⟩ := triple
        rw [hrest] at hfold
        simp only [Except.ok.injEq, Prod.mk.injEq] at hfold
        obtain ⟨h1, h2, h3⟩ := hfold
        rcases List.mem_cons.mp hmem with heq | hmem2
        · cases heq
          refine ⟨o0, hp, ?_, ?_⟩
          · intro row hrow
            rw [← h1]
            exact List.mem_append_left _ hrow
          · intro hvne
            rw [← h2]
            have hemp : o0.videoFilenames.isEmpty = false := by
              cases hval : o0.videoFilenames with
              | nil => exact absurd hval hvne
              | cons x xs => simp
            rw [hemp]
            simp
        · obtain ⟨o, ho, hrc, hvm⟩ := ih hmem2 hrest
          refine ⟨o, ho, ?_, ?_⟩
          · intro row hrow
            rw [← h1]
            exact List.mem_append_right _ (hrc row hrow)
          · intro hv
            rw [← h2]
            have hm := hvm hv
            cases o0.videoFilenames.isEmpty with
            | true => simpa using hm
            | false => simp [hm]

/-- One shared `remote_assets.csv`: the final content of a successful split
run is the last per-job write, folding overwrites in job order. -/
theorem writeJobsAux_spec {kp : String} {d : String → Bool}
    {assets : List (Asset × List String)} {fmt : AnnotationFormat} :
    ∀ {l : List (String × List (String × JobCategory))}
      {fs : Option (List (List String))}
      {outs : List (String × FolderOut)}
      {finalCsv : Option (List (List String))},
      writeJobsLabelsAux kp d assets fmt l fs = .ok (outs, finalCsv) →
      outs.map Prod.fst = l.map Prod.fst ∧
      finalCsv = (outs.map (fun p => p.2.remoteCsv)).foldl
        (fun acc oc =>
          match oc with
          | some rows => some rows
          | none => acc) fs := by
  intro l
  induction l with
  | nil =>
    intro fs outs finalCsv h
    simp only [writeJobsLabelsAux] at h
    simp only [Except.ok.injEq, Prod.mk.injEq] at h
    obtain ⟨h1, h2⟩ := h
    subst h1
    subst h2
    simp
  | cons hd rest ih =>
    intro fs outs finalCsv h
    obtain ⟨jid, cats⟩ := hd
    simp only [writeJobsLabelsAux] at h
    cases hw : writeLabelsIntoSingleFolder kp d assets cats fmt with
    | error e =>
      rw [hw] at h
      exact Except.noConfusion h
    | ok out =>
      simp only [hw] at h
      cases haux : writeJobsLabelsAux kp d assets fmt rest
          (match out.remoteCsv with
           | some rows => some rows
           | none => fs) with
      | error e =>
        rw [haux] at h
        exact Except.noConfusion h
      | ok pr =>
        obtain ⟨outs2, final2⟩ := pr
        rw [haux] at h
        simp only [Except.ok.injEq, Prod.mk.injEq] at h
        obtain ⟨h1, h2⟩ := h
        subst h1
        subst h2
        obtain ⟨hih1, hih2⟩ := ih haux
        constructor
        · simp [hih1]
        · simp only [List.map_cons, List.foldl_cons]
          exact hih2

/-- Appending consecutive ranges. -/
theorem range'_append_consec (s m n : Nat) :
    List.range' s m ++ List.range' (s + m) n = List.range' s (m + n) := by
  have := List.range'_append s m n 1
  simp [Nat.add_comm] at this
  simpa [Nat.add_comm] using this

/-- The inner category loop assigns as many entries as declared
categories. -/
theorem catsWithIds_length (jobId : String) :
    ∀ (cs : List String) (n : Nat), (catsWithIds jobId cs n).length = cs.length := by
  intro cs
  induction cs with
  | nil => intro n; rfl
  | cons c rest ih =>
    intro n
    simp only [catsWithIds, List.length_cons, ih]

/-- The inner category loop assigns the consecutive ids `n, n+1, …` in
declaration order. -/
theorem catsWithIds_map_id (jobId : String) :
    ∀ (cs : List String) (n : Nat),
      (catsWithIds jobId cs n).map (fun p => p.2.id)
        = List.range' n cs.length := by
  intro cs
  induction cs with
  | nil => intro n; rfl
  | cons c rest ih =>
    intro n
    simp only [catsWithIds, List.map_cons, List.length_cons, ih]
    rfl

/-- The inner category loop records the given job id and the declared
category names in order. -/
theorem catsWithIds_map_pair (jobId : String) :
    ∀ (cs : List String) (n : Nat),
      (catsWithIds jobId cs n).map (fun p => (p.2.job_id, p.2.category_name))
        = cs.map (fun cName => (jobId, cName)) := by
  intro cs
  induction cs with
  | nil => intro n; rfl
  | cons c rest ih =>
    intro n
    simp only [catsWithIds, List.map_cons, ih]

/-- The merged indexer assigns the consecutive ids `n, n+1, …` across all
qualifying jobs. -/
theorem mergedAux_map_id (mlTask tool : String) :
    ∀ (l : List (String × Job)) (n : Nat),
      (getMergedCategoriesAux mlTask tool l n).map (fun p => p.2.id)
        = List.range' n (getMergedCategoriesAux mlTask tool l n).length := by
  intro l
  induction l with
  | nil => intro n; rfl
  | cons hd rest ih =>
    intro n
    obtain ⟨jobId, j⟩ := hd
    by_cases hq : jobQualifies mlTask tool j
    · simp only [getMergedCategoriesAux, hq, if_true, List.map_append,
        List.length_append, catsWithIds_map_id, catsWithIds_length, ih]
      exact range'_append_consec n j.categories.length _
    · simp only [getMergedCategoriesAux, hq, if_false]
      exact ih n

/-- The merged indexer lists exactly the qualifying jobs' categories in
job-then-category declaration order. -/
theorem mergedAux_map_pair (mlTask tool : String) :
    ∀ (l : List (String × Job)) (n : Nat),
      (getMergedCategoriesAux mlTask tool l n).map
          (fun p => (p.2.job_id, p.2.category_name))
        = (l.filter (fun p => jobQualifies mlTask tool p.2)).bind
            (fun p => p.2.categories.map (fun cName => (p.1, cName))) := by
  intro l
  induction l with
  | nil => intro n; rfl
  | cons hd rest ih =>
    intro n
    obtain ⟨jobId, j⟩ := hd
    by_cases hq : jobQualifies mlTask tool j
    · simp only [getMergedCategoriesAux, hq, if_true, List.map_append,
        catsWithIds_map_pair, ih, List.filter_cons, List.cons_bind]
    · simp only [getMergedCategoriesAux, hq, if_false, List.filter_cons]
      rw [if_neg (by simpa using hq)]
      exact ih n

/-- `zfill` in closed form: left zeros to the requested width (none when the
string is already wide enough, by truncated subtraction). -/
theorem zfill_eq (s : String) (w : Nat) :
    zfill s w = String.mk (List.replicate (w - s.length) '0' ++ s.data) := by
  unfold zfill
  split
  · next hle =>
    have : w - s.length = 0 := Nat.sub_eq_zero_of_le hle
    rw [this]
    cases s
    rfl
  · cases s
    rfl

/-- C7: class-file output is byte-exact.  `{OBJECT_A: 0, OBJECT_B: 1}` yields
exactly `"0 OBJECT_A\n1 OBJECT_B\n"` in YoloV4 mode (`classes.txt`) and
`"nc: 2\nnames: ['OBJECT_A', 'OBJECT_B']\n"` in YoloV5 mode (`data.yaml`);
an empty category set still yields a valid class file (empty category
content). -/
theorem c7_class_file_bytes :
    writeClassFile fixtureCategoryIds AnnotationFormat.yoloV4
      = [("classes.txt", "0 OBJECT_A\n1 OBJECT_B\n")]
    ∧ writeClassFile fixtureCategoryIds AnnotationFormat.yoloV5
      = [("data.yaml", "nc: 2\nnames: ['OBJECT_A', 'OBJECT_B']\n")]
    ∧ writeClassFile [] AnnotationFormat.yoloV4 = [("classes.txt", "")]
    ∧ writeClassFile [] AnnotationFormat.yoloV5
      = [("data.yaml", "nc: 0\nnames: []\n")] := by
  refine ⟨by decide, by decide, by decide, by decide⟩

/-- C3 counterexample: contrary to the claim, a failure of the raw-video
download does not abort `cut_video`: at this concrete input the download
fails, the probe and extraction succeed, and the call returns successfully,
copying a frame image out, with the failure only logged. -/
theorem c3_counterexample_download_not_fatal :
    cut_video false none (.ok 30) (.ok ()) [0] [(0, ⟨none⟩)] "video_1" 1
      = .ok ⟨["Error while downloading video of asset"], ["video_1_1.jpg"]⟩ := by
  decide

/-- C3 (amended): a frame-rate-probe failure and a frame-extraction failure
abort the video path with the error propagated (no frame images are copied
out); a failure of the raw-video download is only logged and the video path
continues; and an image-download failure elsewhere (`_process_asset`)
changes nothing but the logged warnings. -/
theorem c3_video_failure_semantics :
    (∀ (dOk : Bool) (er : Except PyErr Unit) (ei : List Int)
        (fr : List (Int × Label)) (ofn : String) (lz : Nat) (e : PyErr),
        cut_video dOk none (.error e) er ei fr ofn lz = .error e)
    ∧ (∀ (dOk : Bool) (mf : Option ℚ) (pr : Except PyErr ℚ) (q : ℚ)
        (ei : List Int) (fr : List (Int × Label)) (ofn : String) (lz : Nat)
        (e : PyErr),
        (match mf with
         | some f => Except.ok f
         | none => pr) = .ok q →
        cut_video dOk mf pr (.error e) ei fr ofn lz = .error e)
    ∧ (∀ (dOk : Bool) (mf : Option ℚ) (pr : Except PyErr ℚ) (q : ℚ)
        (ei : List Int) (fr : List (Int × Label)) (ofn : String) (lz : Nat),
        (match mf with
         | some f => Except.ok f
         | none => pr) = .ok q →
        cut_video dOk mf pr (.ok ()) ei fr ofn lz
          = .ok ⟨(if dOk then []
              else ["Error while downloading video of asset"]),
            fr.filterMap (fun p =>
              if ei.contains p.1 then
                some (ofn ++ "_" ++ zfill (toString (p.1 + 1)) lz ++ ".jpg")
              else none)⟩)
    ∧ (∀ (kp : String) (d : String → Bool) (asset : Asset)
        (cf : List String) (c : List (String × JobCategory)),
        (processAsset kp d asset cf c).map stripWarnings
          = (processAsset kp dOkTrue asset cf c).map stripWarnings) := by
  refine ⟨?_, ?_, ?_, ?_⟩
  · intro dOk er ei fr ofn lz e
    rfl
  · intro dOk mf pr q ei fr ofn lz e hfr
    unfold cut_video
    rw [hfr]
  · intro dOk mf pr q ei fr ofn lz hfr
    unfold cut_video
    rw [hfr]
  · intro kp d asset cf c
    exact processAsset_strip kp d dOkTrue asset cf c

/-- Witness for C3 (amended) at concrete inputs: a probe error propagates,
an extraction error propagates after a metadata-supplied frame rate, and a
download failure still completes the path. -/
theorem c3_video_failure_semantics_witness :
    cut_video true none (.error (.ffmpegError "probe")) (.ok ()) [] []
        "v" 1 = .error (.ffmpegError "probe")
    ∧ cut_video true (some 25) (.ok 25) (.error (.ffmpegError "extract"))
        [] [] "v" 1 = .error (.ffmpegError "extract")
    ∧ cut_video false (some 25) (.ok 25) (.ok ()) [0] [(0, ⟨none⟩)] "v" 1
      = .ok ⟨["Error while downloading video of asset"], ["v_1.jpg"]⟩ := by
  refine ⟨c3_video_failure_semantics.1 true (.ok ()) [] [] "v" 1
      (.ffmpegError "probe"),
    c3_video_failure_semantics.2.1 true (some 25) (.ok 25) 25 [] [] "v" 1
      (.ffmpegError "extract") rfl, ?_⟩
  have h := c3_video_failure_semantics.2.2.1 false (some 25) (.ok 25) 25
    [0] [(0, ⟨none⟩)] "v" 1 rfl
  rw [h]
  decide

/-- C8: in `_convert_from_kili_to_yolo_format` the category lookup precedes
the bounding-polygon guard: an annotation whose first listed category name is
absent from the scope raises `KeyError` even when it lacks `boundingPoly` and
would otherwise be skipped. -/
theorem c8_lookup_before_poly_guard (jobId catName : String)
    (categoryIds : List (String × JobCategory)) (jr : JsonResp) (r : JobResp)
    (a : KiliAnn) (rest : List KiliAnn)
    (h1 : lookupKey jr jobId = some (JRVal.job r))
    (h2 : r.annotations = some (a :: rest))
    (h3 : a.categories.head? = some catName)
    (h4 : lookupKey categoryIds (getCategoryFullName jobId catName) = none)
    (h5 : a.boundingPoly = none) :
    convertFromKiliToYoloFormat jobId (some ⟨some jr⟩) categoryIds
      = .error (.keyError (getCategoryFullName jobId catName)) := by
  simp only [convertFromKiliToYoloFormat, h1, h2, convertAnns, convertAnn,
    h3, h4]

/-- Witness for C8: an annotation for the unknown category `MISSING` without
any `boundingPoly` raises the lookup error. -/
theorem c8_lookup_before_poly_guard_witness :
    convertFromKiliToYoloFormat "JOB_0"
        (some ⟨some [("JOB_0",
          JRVal.job ⟨some [⟨["MISSING"], none⟩]⟩)]⟩) fixtureCategoryIds
      = .error (.keyError "JOB_0__MISSING") :=
  c8_lookup_before_poly_guard "JOB_0" "MISSING" fixtureCategoryIds
    [("JOB_0", JRVal.job ⟨some [⟨["MISSING"], none⟩]⟩)]
    ⟨some [⟨["MISSING"], none⟩]⟩ ⟨["MISSING"], none⟩ [] rfl rfl rfl rfl rfl

/-- C2: category ids are dense from 0 and unique, in job-then-category
declaration order, over the jobs with `mlTask = OBJECT_DETECTION`,
`rectangle` among tools and falsy `isModel`: one global counter in merged
mode, a counter restarting at 0 per job in split mode. -/
theorem c2_category_ids_dense (iface : List (String × Job))
    (mlTask tool : String) :
    ((getMergedCategories iface mlTask tool).map (fun p => p.2.id)
      = List.range (getMergedCategories iface mlTask tool).length)
    ∧ ((getMergedCategories iface mlTask tool).map
          (fun p => (p.2.job_id, p.2.category_name))
      = (iface.filter (fun p => jobQualifies mlTask tool p.2)).bind
          (fun p => p.2.categories.map (fun cName => (p.1, cName))))
    ∧ (∀ jobId cats, (jobId, cats) ∈ getCategoriesByJob iface mlTask tool →
        cats.map (fun p => p.2.id) = List.range cats.length
        ∧ ∃ j, (jobId, j) ∈ iface ∧ jobQualifies mlTask tool j = true
          ∧ cats.map (fun p => (p.2.job_id, p.2.category_name))
            = j.categories.map (fun cName => (jobId, cName))) := by
  refine ⟨?_, ?_, ?_⟩
  · rw [List.range_eq_range']
    exact mergedAux_map_id mlTask tool iface 0
  · exact mergedAux_map_pair mlTask tool iface 0
  · intro jobId cats hmem
    unfold getCategoriesByJob at hmem
    obtain ⟨p, hp, hfn⟩ := List.mem_filterMap.mp hmem
    obtain ⟨jid0, j⟩ := p
    by_cases hq : jobQualifies mlTask tool j
    · rw [if_pos hq] at hfn
      simp only [Option.some.injEq, Prod.mk.injEq] at hfn
      obtain ⟨hjid, hcats⟩ := hfn
      rw [hjid] at hp
      refine ⟨?_, j, hp, hq, ?_⟩
      · rw [← hcats, catsWithIds_map_id jid0 j.categories 0,
          catsWithIds_length, List.range_eq_range']
      · rw [← hcats, catsWithIds_map_pair jid0 j.categories 0, hjid]
    · rw [if_neg hq] at hfn
      exact Option.noConfusion hfn

/-- Witness for C2 on the concrete fixture interface: merged ids are
`0, 1, 2` over the two qualifying jobs, and each split job restarts at 0. -/
theorem c2_category_ids_dense_witness :
    (getMergedCategories ifaceFix "OBJECT_DETECTION" "rectangle").map
        (fun p => p.2.id) = [0, 1, 2]
    ∧ fixtureCategoryIds.map (fun p => p.2.id) = [0, 1]
    ∧ catIdsJob1.map (fun p => p.2.id) = [0] := by
  refine ⟨?_, ?_, ?_⟩
  · have h := (c2_category_ids_dense ifaceFix "OBJECT_DETECTION"
      "rectangle").1
    rw [h]
    decide
  · have h := (c2_category_ids_dense ifaceFix "OBJECT_DETECTION"
      "rectangle").2.2 "JOB_0" fixtureCategoryIds (by decide)
    rw [h.1]
    decide
  · have h := (c2_category_ids_dense ifaceFix "OBJECT_DETECTION"
      "rectangle").2.2 "JOB_1" catIdsJob1 (by decide)
    rw [h.1]
    decide

/-- C6: the emitted base filename of a frame-group member at index `idx` is
`external_id + "_" + str(idx + 1)` left-padded with zeros to the digit width
of the declared frame count; outside a frame group it is `external_id`
verbatim. -/
theorem c6_filename_rule (lf : LabelFrames) (idx : Int) :
    (lf.is_frame_group = true →
      frameFilename lf idx = lf.external_id ++ "_"
        ++ String.mk (List.replicate
            ((toString lf.number_frames).length
              - (toString (idx + 1)).length) '0'
            ++ (toString (idx + 1)).data))
    ∧ (lf.is_frame_group = false → frameFilename lf idx = lf.external_id)
    ∧ frameFilename ⟨[], 4, true, "video_1"⟩ 0 = "video_1_1"
    ∧ frameFilename ⟨[], 4, true, "video_1"⟩ 3 = "video_1_4"
    ∧ frameFilename ⟨[], 100, true, "video_1"⟩ 0 = "video_1_001"
    ∧ frameFilename ⟨[], 4, false, "video_1"⟩ 2 = "video_1" := by
  refine ⟨?_, ?_, by decide, by decide, by decide, by decide⟩
  · intro h
    simp only [frameFilename, h, if_true, LabelFrames.get_label_filename,
      LabelFrames.get_leading_zeros, zfill_eq]
  · intro h
    simp only [frameFilename, h, Bool.false_eq_true, if_false]

/-- Witness for C6 at a frame group of 12 declared frames and a non-group
frame. -/
theorem c6_filename_rule_witness :
    frameFilename ⟨[], 12, true, "vid"⟩ 2 = "vid" ++ "_"
      ++ String.mk (List.replicate
          ((toString (12 : Nat)).length - (toString (2 + 1 : Int)).length) '0'
          ++ (toString (2 + 1 : Int)).data)
    ∧ frameFilename ⟨[], 12, false, "vid"⟩ 2 = "vid" := by
  exact ⟨(c6_filename_rule ⟨[], 12, true, "vid"⟩ 2).1 rfl,
    (c6_filename_rule ⟨[], 12, false, "vid"⟩ 2).2.1 rfl⟩

/-- C1: annotation conversion.  Guard cases (absent label, absent
`jsonResponse`, absent job id, absent `annotations` key) yield the empty
list; a fully-formed annotation emits
`(category id, (x_max+x_min)/2, (y_max+y_min)/2, x_max-x_min, y_max-y_min)`
where `qMin`/`qMax` are the min/max over all vertex coordinates (their
characterization is part of the statement); and the repository fixture
yields exactly one annotation whose coordinates are within `1/10000` of
`(0.5014, 0.5296, 0.6727, 0.5381)`. -/
theorem c1_convert_kili_to_yolo (jobId : String)
    (categoryIds : List (String × JobCategory)) :
    (convertFromKiliToYoloFormat jobId none categoryIds = .ok [])
    ∧ (convertFromKiliToYoloFormat jobId (some ⟨none⟩) categoryIds = .ok [])
    ∧ (∀ jr : JsonResp, lookupKey jr jobId = none →
        convertFromKiliToYoloFormat jobId (some ⟨some jr⟩) categoryIds
          = .ok [])
    ∧ (∀ (jr : JsonResp) (r : JobResp),
        lookupKey jr jobId = some (JRVal.job r) → r.annotations = none →
        convertFromKiliToYoloFormat jobId (some ⟨some jr⟩) categoryIds
          = .ok [])
    ∧ (∀ (x : ℚ) (xs : List ℚ),
        (qMin x xs ∈ x :: xs ∧ ∀ y ∈ x :: xs, qMin x xs ≤ y)
        ∧ (qMax x xs ∈ x :: xs ∧ ∀ y ∈ x :: xs, y ≤ qMax x xs))
    ∧ (∀ (a : KiliAnn) (catName : String) (rest : List String)
        (jc : JobCategory) (ring : VertexRing) (rings : List VertexRing)
        (v : Vertex) (vs : List Vertex),
        a.categories = catName :: rest →
        lookupKey categoryIds (getCategoryFullName jobId catName) = some jc →
        a.boundingPoly = some (ring :: rings) →
        ring.normalizedVertices = some (v :: vs) →
        convertAnn jobId categoryIds a = .ok (some (jc.id,
          (qMax v.x (vs.map Vertex.x) + qMin v.x (vs.map Vertex.x)) / 2,
          (qMax v.y (vs.map Vertex.y) + qMin v.y (vs.map Vertex.y)) / 2,
          qMax v.x (vs.map Vertex.x) - qMin v.x (vs.map Vertex.x),
          qMax v.y (vs.map Vertex.y) - qMin v.y (vs.map Vertex.y))))
    ∧ (convertFromKiliToYoloFormat "JOB_0" (some fixtureLabel)
          fixtureCategoryIds
        = .ok [(0, 0.50141502627480197, 0.5296278884310181,
            0.67274724558493726, 0.5381320101586394)]
      ∧ |(0.50141502627480197 : ℚ) - 0.5014| < 1 / 10000
      ∧ |(0.5296278884310181 : ℚ) - 0.5296| < 1 / 10000
      ∧ |(0.67274724558493726 : ℚ) - 0.6727| < 1 / 10000
      ∧ |(0.5381320101586394 : ℚ) - 0.5381| < 1 / 10000) := by
  refine ⟨rfl, rfl, ?_, ?_, ?_, ?_, ?_, ?_, ?_, ?_, ?_⟩
  · intro jr h
    simp [convertFromKiliToYoloFormat, h]
  · intro jr r h1 h2
    simp [convertFromKiliToYoloFormat, h1, h2]
  · intro x xs
    exact ⟨qMin_spec x xs, qMax_spec x xs⟩
  · intro a catName rest jc ring rings v vs h1 h2 h3 h4
    simp [convertAnn, h1, h2, h3, h4]
  · have hAB : (0.16504140348233334 : ℚ) ≤ 0.8377886490672706 := by norm_num
    have hDC : (0.2605618833516984 : ℚ) ≤ 0.7986938935103378 := by norm_num
    have hxmin : qMin (0.16504140348233334 : ℚ)
        [0.16504140348233334, 0.8377886490672706, 0.8377886490672706]
        = 0.16504140348233334 := by
      simp only [qMin, List.foldl_cons, List.foldl_nil, min_self]
      rw [min_eq_left hAB, min_eq_left hAB]
    have hxmax : qMax (0.16504140348233334 : ℚ)
        [0.16504140348233334, 0.8377886490672706, 0.8377886490672706]
        = 0.8377886490672706 := by
      simp only [qMax, List.foldl_cons, List.foldl_nil, max_self]
      rw [max_eq_right hAB, max_self]
    have hymin : qMin (0.7986938935103378 : ℚ)
        [0.2605618833516984, 0.2605618833516984, 0.7986938935103378]
        = 0.2605618833516984 := by
      simp only [qMin, List.foldl_cons, List.foldl_nil]
      rw [min_eq_right hDC, min_self, min_eq_left hDC]
    have hymax : qMax (0.7986938935103378 : ℚ)
        [0.2605618833516984, 0.2605618833516984, 0.7986938935103378]
        = 0.7986938935103378 := by
      simp only [qMax, List.foldl_cons, List.foldl_nil]
      rw [max_eq_left hDC, max_eq_left hDC, max_self]
    have hmid : convertFromKiliToYoloFormat "JOB_0" (some fixtureLabel)
        fixtureCategoryIds
        = .ok [(0,
            (qMax (0.16504140348233334 : ℚ)
                [0.16504140348233334, 0.8377886490672706, 0.8377886490672706]
              + qMin (0.16504140348233334 : ℚ)
                [0.16504140348233334, 0.8377886490672706,
                  0.8377886490672706]) / 2,
            (qMax (0.7986938935103378 : ℚ)
                [0.2605618833516984, 0.2605618833516984, 0.7986938935103378]
              + qMin (0.7986938935103378 : ℚ)
                [0.2605618833516984, 0.2605618833516984,
                  0.7986938935103378]) / 2,
            qMax (0.16504140348233334 : ℚ)
                [0.16504140348233334, 0.8377886490672706, 0.8377886490672706]
              - qMin (0.16504140348233334 : ℚ)
                [0.16504140348233334, 0.8377886490672706,
                  0.8377886490672706],
            qMax (0.7986938935103378 : ℚ)
                [0.2605618833516984, 0.2605618833516984, 0.7986938935103378]
              - qMin (0.7986938935103378 : ℚ)
                [0.2605618833516984, 0.2605618833516984,
                  0.7986938935103378])] := rfl
    rw [hmid, hxmin, hxmax, hymin, hymax]
    norm_num
  · rw [abs_sub_lt_iff]
    constructor <;> norm_num
  · rw [abs_sub_lt_iff]
    constructor <;> norm_num
  · rw [abs_sub_lt_iff]
    constructor <;> norm_num
  · rw [abs_sub_lt_iff]
    constructor <;> norm_num

/-- Witness for C1: the empty-response guard and the fixture annotation,
with every hypothesis discharged at concrete input. -/
theorem c1_convert_kili_to_yolo_witness :
    convertFromKiliToYoloFormat "JOB_0" (some ⟨some []⟩) fixtureCategoryIds
      = .ok []
    ∧ convertAnn "JOB_0" fixtureCategoryIds fixtureAnn
      = .ok (some (0,
          (qMax (0.16504140348233334 : ℚ)
              [0.16504140348233334, 0.8377886490672706, 0.8377886490672706]
            + qMin (0.16504140348233334 : ℚ)
              [0.16504140348233334, 0.8377886490672706,
                0.8377886490672706]) / 2,
          (qMax (0.7986938935103378 : ℚ)
              [0.2605618833516984, 0.2605618833516984, 0.7986938935103378]
            + qMin (0.7986938935103378 : ℚ)
              [0.2605618833516984, 0.2605618833516984,
                0.7986938935103378]) / 2,
          qMax (0.16504140348233334 : ℚ)
              [0.16504140348233334, 0.8377886490672706, 0.8377886490672706]
            - qMin (0.16504140348233334 : ℚ)
              [0.16504140348233334, 0.8377886490672706, 0.8377886490672706],
          qMax (0.7986938935103378 : ℚ)
              [0.2605618833516984, 0.2605618833516984, 0.7986938935103378]
            - qMin (0.7986938935103378 : ℚ)
              [0.2605618833516984, 0.2605618833516984,
                0.7986938935103378])) := by
  refine ⟨(c1_convert_kili_to_yolo "JOB_0" fixtureCategoryIds).2.2.1 []
      rfl, ?_⟩
  exact (c1_convert_kili_to_yolo "JOB_0" fixtureCategoryIds).2.2.2.2.2.1
    fixtureAnn "OBJECT_A" [] ⟨"OBJECT_A", 0, "JOB_0"⟩
    ⟨some fixtureVertices⟩ [] ⟨0.16504140348233334, 0.7986938935103378⟩
    [⟨0.16504140348233334, 0.2605618833516984⟩,
     ⟨0.8377886490672706, 0.2605618833516984⟩,
     ⟨0.8377886490672706, 0.7986938935103378⟩] rfl rfl rfl rfl

/-- With a present `jsonResponse`, a non-negative index is a retained frame
of `from_asset` exactly when it is in the kept list (the `-1` fallback entry
can never collide with a natural index). -/
theorem from_asset_mem_of_some {asset : Asset} {jobIds : List String}
    {jr : JsonResp} (hjr : asset.latestLabel.jsonResponse = some jr)
    (idx : Nat) (l : Label) :
    ((Int.ofNat idx, l) ∈ (LabelFrames.from_asset asset jobIds).frames)
      ↔ ((Int.ofNat idx, l) ∈ fromAssetKept jr jobIds) := by
  simp only [LabelFrames.from_asset, hjr]
  split
  · next hemp =>
    have hk : fromAssetKept jr jobIds = [] := by
      cases hval : fromAssetKept jr jobIds with
      | nil => rfl
      | cons x xs =>
        rw [hval] at hemp
        simp at hemp
    constructor
    · intro h
      simp at h
    · intro h
      rw [hk] at h
      simp at h
  · exact Iff.rfl

/-- C5: frame resolution.  The frames mapping is never empty; with a present
`jsonResponse`, a frame index `idx` is retained exactly when `str(idx)` is a
key of the response within the declared count and at least one considered
job id has a non-empty `annotations` list there; and when the response is
absent or no frame qualifies, the mapping falls back to the synthetic entry
`{-1: asset}` holding the whole asset. -/
theorem c5_frame_retention (asset : Asset) (jobIds : List String) :
    ((LabelFrames.from_asset asset jobIds).frames ≠ [])
    ∧ (∀ jr : JsonResp, asset.latestLabel.jsonResponse = some jr →
        ∀ idx : Nat,
          ((∃ l, (Int.ofNat idx, l)
              ∈ (LabelFrames.from_asset asset jobIds).frames)
            ↔ (idx < jr.length ∧ ∃ f,
                lookupKey jr (toString idx) = some (JRVal.frame f)
                ∧ ∃ j ∈ jobIds, ∃ r, lookupKey f j = some r
                  ∧ ∃ anns, r.annotations = some anns ∧ anns ≠ [])))
    ∧ (asset.latestLabel.jsonResponse = none →
        (LabelFrames.from_asset asset jobIds).frames
          = [(-1, asset.latestLabel)])
    ∧ (∀ jr : JsonResp, asset.latestLabel.jsonResponse = some jr →
        (∀ idx : Nat, ¬(idx < jr.length ∧ ∃ f,
            lookupKey jr (toString idx) = some (JRVal.frame f)
            ∧ ∃ j ∈ jobIds, ∃ r, lookupKey f j = some r
              ∧ ∃ anns, r.annotations = some anns ∧ anns ≠ [])) →
        (LabelFrames.from_asset asset jobIds).frames
          = [(-1, asset.latestLabel)]) := by
  refine ⟨?_, ?_, ?_, ?_⟩
  · cases hjr : asset.latestLabel.jsonResponse with
    | none => simp [LabelFrames.from_asset, hjr]
    | some jr =>
      simp only [LabelFrames.from_asset, hjr]
      split
      · simp
      · next hemp =>
        intro hnil
        rw [hnil] at hemp
        simp at hemp
  · intro jr hjr idx
    rw [exists_congr (fun l => from_asset_mem_of_some hjr idx l)]
    constructor
    · rintro ⟨l, hl⟩
      obtain ⟨idx2, hn, v, hlk, hrf, heq⟩ := mem_fromAssetKept.mp hl
      simp only [Prod.mk.injEq] at heq
      obtain ⟨hidx, _⟩ := heq
      simp only [Int.ofNat_eq_coe] at hidx
      have hidx2 : idx = idx2 := by exact_mod_cast hidx
      subst hidx2
      obtain ⟨f, hvf, j, hj, r, hr, anns, hann, hne⟩ :=
        (retainsFrame_iff jobIds v).mp hrf
      subst hvf
      exact ⟨hn, f, hlk, j, hj, r, hr, anns, hann, hne⟩
    · rintro ⟨hn, f, hlk, j, hj, r, hr, anns, hann, hne⟩
      refine ⟨wrapFrame (JRVal.frame f), mem_fromAssetKept.mpr
        ⟨idx, hn, JRVal.frame f, hlk, ?_, rfl⟩⟩
      exact (retainsFrame_iff jobIds (JRVal.frame f)).mpr
        ⟨f, rfl, j, hj, r, hr, anns, hann, hne⟩
  · intro h
    simp [LabelFrames.from_asset, h]
  · intro jr hjr hnone
    have hk : fromAssetKept jr jobIds = [] := by
      by_contra hne
      obtain ⟨p, hp⟩ := List.exists_mem_of_ne_nil _ hne
      obtain ⟨idx, hn, v, hlk, hrf, heq⟩ := mem_fromAssetKept.mp hp
      obtain ⟨f, hvf, j, hj, r, hr, anns, hann, hanne⟩ :=
        (retainsFrame_iff jobIds v).mp hrf
      subst hvf
      exact hnone idx ⟨hn, f, hlk, j, hj, r, hr, anns, hann, hanne⟩
    simp [LabelFrames.from_asset, hjr, hk]

/-- Witness for C5: the two-frame video asset retains frame 0; a job-shaped
single response falls back to the synthetic `-1` entry. -/
theorem c5_frame_retention_witness :
    (LabelFrames.from_asset videoAsset ["JOB_0"]).frames ≠ []
    ∧ (∃ l, (Int.ofNat 0, l)
        ∈ (LabelFrames.from_asset videoAsset ["JOB_0"]).frames)
    ∧ (LabelFrames.from_asset assetA ["JOB_0"]).frames
      = [(-1, assetA.latestLabel)] := by
  refine ⟨(c5_frame_retention videoAsset ["JOB_0"]).1, ?_, ?_⟩
  · refine ((c5_frame_retention videoAsset ["JOB_0"]).2.1 _ rfl 0).mpr
      ⟨by decide, [("JOB_0", (⟨some [boxAnn]⟩ : JobResp))], rfl, "JOB_0",
        by decide, ⟨some [boxAnn]⟩, rfl, [boxAnn], rfl, by decide⟩
  · refine (c5_frame_retention assetA ["JOB_0"]).2.2.2 _ rfl ?_
    intro idx h
    obtain ⟨hn, f, hlk, _⟩ := h
    simp at hn
    have h0 : idx = 0 := by omega
    subst h0
    have hnone : lookupKey
        [("JOB_0", JRVal.job (⟨some [boxAnn]⟩ : JobResp))] (toString 0)
        = none := by decide
    rw [hnone] at hlk
    exact Option.noConfusion hlk

/-- C4: an asset whose candidate URLs are all off-platform never triggers a
download attempt (neither the image-download branch nor the video-cut
branch), each of its frames with a non-empty annotation union is recorded as
the remote row `(external_id, url, label_filename.txt)`, and those rows all
land in the written `remote_assets.csv`. -/
theorem c4_unserved_assets (kp : String) (d : String → Bool) (asset : Asset)
    (cf : List String) (c : List (String × JobCategory)) (o : ProcessOut)
    (ha : is_asset_served_by_kili kp asset.content = false)
    (hcf : ∀ u ∈ cf, is_asset_served_by_kili kp u = false)
    (ho : processAsset kp d asset cf c = .ok o) :
    o.downloadAttempts = []
    ∧ o.cutVideoInvoked = false
    ∧ o.remoteContent
      = (LabelFrames.from_asset asset (jobIdsOf c)).frames.filterMap
          (fun e =>
            match getFrameLabels e.2 (jobIdsOf c) c,
                resolveUrl cf asset e.1 with
            | .ok ls, .ok u =>
              if ls.isEmpty then none
              else some [asset.externalId, u,
                frameFilename (LabelFrames.from_asset asset (jobIdsOf c)) e.1
                  ++ ".txt"]
            | _, _ => none)
    ∧ (∀ (assets : List (Asset × List String)) (fmt : AnnotationFormat)
        (fo : FolderOut), (asset, cf) ∈ assets →
        writeLabelsIntoSingleFolder kp d assets c fmt = .ok fo →
        ∀ row ∈ o.remoteContent,
          ∃ rows, fo.remoteCsv = some rows ∧ row ∈ rows) := by
  obtain ⟨hall, hrc, hvf, hlf, hdl, hcut⟩ := processAsset_ok_char ho
  refine ⟨?_, ?_, ?_, ?_⟩
  · rw [hdl]
    apply List.filterMap_eq_nil_iff.mpr
    intro e he
    obtain ⟨dl, hdl2⟩ := hall e he
    simp only [hdl2, okThen]
    exact (processFrame_unserved ha hcf hdl2).1
  · rw [hcut, ha]
    simp
  · rw [hrc]
    apply List.filterMap_congr
    intro e he
    obtain ⟨dl, hdl2⟩ := hall e he
    simp only [hdl2, okThen]
    exact (processFrame_unserved ha hcf hdl2).2
  · intro assets fmt fo hmem hw row hrow
    unfold writeLabelsIntoSingleFolder at hw
    cases hfold : foldAssets kp d c assets with
    | error e =>
      rw [hfold] at hw
      exact Except.noConfusion hw
    | ok triple =>
      obtain ⟨rc, vm, lfs⟩ := triple
      rw [hfold] at hw
      simp only [Except.ok.injEq] at hw
      obtain ⟨o2, ho2, hrcmem, _⟩ := foldAssets_mem hmem hfold
      have ho2o : o2 = o := by
        have h2 := ho2.symm.trans ho
        simpa using h2
      have hrowrc : row ∈ rc := by
        apply hrcmem
        rw [ho2o]
        exact hrow
      have hne : rc ≠ [] := by
        intro hnil
        rw [hnil] at hrowrc
        simp at hrowrc
      have hempty : rc.isEmpty = false := by
        cases rc with
        | nil => exact absurd rfl hne
        | cons x xs => rfl
      rw [← hw]
      refine ⟨remoteCsvContent rc, ?_, List.mem_cons_of_mem _ hrowrc⟩
      dsimp only
      rw [hempty]
      simp

/-- Witness for C4: the remotely-hosted fixture asset is processed without
any download attempt and without invoking the video cut. -/
theorem c4_unserved_assets_witness :
    (processAsset kpFix dOkTrue assetA [] fixtureCategoryIds).map
        ProcessOut.downloadAttempts = .ok []
    ∧ (processAsset kpFix dOkTrue assetA [] fixtureCategoryIds).map
        ProcessOut.cutVideoInvoked = .ok false := by
  obtain ⟨o, ho⟩ : ∃ o,
      processAsset kpFix dOkTrue assetA [] fixtureCategoryIds = .ok o :=
    ⟨_, rfl⟩
  have h := c4_unserved_assets kpFix dOkTrue assetA [] fixtureCategoryIds o
    (by decide) (by simp) ho
  rw [ho]
  exact ⟨by simp only [Except.map]; rw [h.1],
    by simp only [Except.map]; rw [h.2.1]⟩

/-- C10: a frame group's video filenames are recorded for every retained
frame, before the empty-annotation check; label files exist only for frames
with a non-empty converted union; the video filenames land in
`video_meta.json`; and concretely the two-frame fixture records `vid_2` in
the metadata although no label file `vid_2` exists. -/
theorem c10_video_meta_without_labels (kp : String) (d : String → Bool)
    (asset : Asset) (cf : List String) (c : List (String × JobCategory))
    (o : ProcessOut)
    (hg : (LabelFrames.from_asset asset (jobIdsOf c)).is_frame_group = true)
    (ho : processAsset kp d asset cf c = .ok o) :
    o.videoFilenames
      = (LabelFrames.from_asset asset (jobIdsOf c)).frames.map (fun e =>
          (LabelFrames.from_asset asset (jobIdsOf c)).get_label_filename e.1)
    ∧ (∀ p ∈ o.labelFiles,
        ∃ e ∈ (LabelFrames.from_asset asset (jobIdsOf c)).frames,
          p.1 = frameFilename (LabelFrames.from_asset asset (jobIdsOf c)) e.1
          ∧ getFrameLabels e.2 (jobIdsOf c) c = .ok p.2 ∧ p.2 ≠ [])
    ∧ (∀ (assets : List (Asset × List String)) (fmt : AnnotationFormat)
        (fo : FolderOut), (asset, cf) ∈ assets → o.videoFilenames ≠ [] →
        writeLabelsIntoSingleFolder kp d assets c fmt = .ok fo →
        ∃ vm, fo.videoMeta = some vm
          ∧ (asset.externalId, o.videoFilenames) ∈ vm)
    ∧ (∃ oo : ProcessOut,
        processAsset kpFix dOkTrue videoAsset [] fixtureCategoryIds = .ok oo
        ∧ "vid_2" ∈ oo.videoFilenames
        ∧ ∀ p ∈ oo.labelFiles, p.1 ≠ "vid_2") := by
  obtain ⟨hall, hrc, hvf, hlf, hdl, hcut⟩ := processAsset_ok_char ho
  refine ⟨?_, ?_, ?_, ?_⟩
  · rw [hvf]
    have hcongr : ∀ e ∈ (LabelFrames.from_asset asset (jobIdsOf c)).frames,
        okThen FrameDelta.videoName (processFrame kp d asset cf (jobIdsOf c)
          c (LabelFrames.from_asset asset (jobIdsOf c)) e)
        = some ((LabelFrames.from_asset asset
            (jobIdsOf c)).get_label_filename e.1) := by
      intro e he
      obtain ⟨dl, hdl2⟩ := hall e he
      simp only [hdl2, okThen]
      rw [processFrame_videoName hdl2]
      simp [hg, frameFilename]
    rw [List.filterMap_congr hcongr]
    rw [show (fun e : Int × Label => some ((LabelFrames.from_asset asset
        (jobIdsOf c)).get_label_filename e.1))
      = some ∘ (fun e : Int × Label => (LabelFrames.from_asset asset
          (jobIdsOf c)).get_label_filename e.1) from rfl]
    rw [List.filterMap_eq_map]
  · rw [hlf]
    intro p hp
    obtain ⟨e, he, hfn⟩ := List.mem_filterMap.mp hp
    obtain ⟨dl, hdl2⟩ := hall e he
    simp only [hdl2, okThen] at hfn
    rcases processFrame_labelFile hdl2 with hnone | ⟨ls, hls, hne, hfile⟩
    · rw [hnone] at hfn
      exact Option.noConfusion hfn
    · rw [hfile] at hfn
      simp only [Option.some.injEq] at hfn
      refine ⟨e, he, ?_, ?_, ?_⟩
      · rw [← hfn]
      · rw [← hfn]
        exact hls
      · rw [← hfn]
        exact hne
  · intro assets fmt fo hmem hv hw
    unfold writeLabelsIntoSingleFolder at hw
    cases hfold : foldAssets kp d c assets with
    | error e =>
      rw [hfold] at hw
      exact Except.noConfusion hw
    | ok triple =>
      obtain ⟨rc, vm, lfs⟩ := triple
      rw [hfold] at hw
      simp only [Except.ok.injEq] at hw
      obtain ⟨o2, ho2, _, hvm⟩ := foldAssets_mem hmem hfold
      have ho2o : o2 = o := by
        have h2 := ho2.symm.trans ho
        simpa using h2
      have hmm : (asset.externalId, o.videoFilenames) ∈ vm := by
        have h3 := hvm (by rw [ho2o]; exact hv)
        rw [ho2o] at h3
        exact h3
      have hne2 : vm ≠ [] := by
        intro hnil
        rw [hnil] at hmm
        simp at hmm
      have hempty : vm.isEmpty = false := by
        cases vm with
        | nil => exact absurd rfl hne2
        | cons x xs => rfl
      rw [← hw]
      refine ⟨vm, ?_, hmm⟩
      dsimp only
      rw [hempty]
      simp
  · refine ⟨_, rfl, by decide, by decide⟩

/-- Witness for C10: the two-frame fixture's recorded video filenames are
exactly the retained frames' filenames. -/
theorem c10_video_meta_without_labels_witness :
    (processAsset kpFix dOkTrue videoAsset [] fixtureCategoryIds).map
        ProcessOut.videoFilenames
      = .ok ((LabelFrames.from_asset videoAsset
          (jobIdsOf fixtureCategoryIds)).frames.map (fun e =>
            (LabelFrames.from_asset videoAsset
              (jobIdsOf fixtureCategoryIds)).get_label_filename e.1)) := by
  obtain ⟨o, ho⟩ : ∃ o,
      processAsset kpFix dOkTrue videoAsset [] fixtureCategoryIds = .ok o :=
    ⟨_, rfl⟩
  have h := c10_video_meta_without_labels kpFix dOkTrue videoAsset []
    fixtureCategoryIds o (by decide) ho
  rw [ho]
  simp only [Except.map]
  rw [h.1]

/-- C9: a split export invokes `write_labels_into_single_folder` once per
qualifying job against the same shared `images/` folder, and the final
`remote_assets.csv` is the last job's write (mode `"w"` truncates), not the
union: concretely, the first job's remote row is absent from the final
file. -/
theorem c9_split_csv_last_writer (kp : String) (d : String → Bool)
    (assets : List (Asset × List String)) (fmt : AnnotationFormat)
    (categoriesByJob : List (String × List (String × JobCategory)))
    (outs : List (String × FolderOut))
    (finalCsv : Option (List (List String)))
    (h : writeJobsLabelsIntoSplitFolders kp d assets categoriesByJob fmt
      = .ok (outs, finalCsv)) :
    outs.map Prod.fst = categoriesByJob.map Prod.fst
    ∧ finalCsv = (outs.map (fun p => p.2.remoteCsv)).foldl
        (fun acc oc =>
          match oc with
          | some rows => some rows
          | none => acc) none
    ∧ (∃ (outsF : List (String × FolderOut))
        (finalF : Option (List (List String))),
        writeJobsLabelsIntoSplitFolders kpFix dOkTrue assetsFix catsByJobFix
            AnnotationFormat.yoloV4 = .ok (outsF, finalF)
        ∧ finalF = some [["external id", "url", "label file"],
            ["b1", "https://remote/b1.jpg", "b1.txt"]]
        ∧ outsF.map (fun p => (p.1, p.2.remoteCsv))
          = [("JOB_0", some [["external id", "url", "label file"],
              ["a1", "https://remote/a1.jpg", "a1.txt"]]),
             ("JOB_1", some [["external id", "url", "label file"],
              ["b1", "https://remote/b1.jpg", "b1.txt"]])]
        ∧ ["a1", "https://remote/a1.jpg", "a1.txt"]
            ∉ [["external id", "url", "label file"],
               ["b1", "https://remote/b1.jpg", "b1.txt"]]) := by
  unfold writeJobsLabelsIntoSplitFolders at h
  obtain ⟨h1, h2⟩ := writeJobsAux_spec h
  refine ⟨h1, h2, ⟨_, _, rfl, by decide, by decide, by decide⟩⟩

/-- Witness for C9: on the fixture split run, the per-job outputs follow the
job order of the category mapping. -/
theorem c9_split_csv_last_writer_witness :
    (writeJobsLabelsIntoSplitFolders kpFix dOkTrue assetsFix catsByJobFix
        AnnotationFormat.yoloV4).map (fun pr => pr.1.map Prod.fst)
      = .ok ["JOB_0", "JOB_1"] := by
  obtain ⟨pr, hpr⟩ : ∃ pr, writeJobsLabelsIntoSplitFolders kpFix dOkTrue
      assetsFix catsByJobFix AnnotationFormat.yoloV4 = .ok pr := ⟨_, rfl⟩
  obtain ⟨outs, finalCsv⟩ := pr
  have h := c9_split_csv_last_writer kpFix dOkTrue assetsFix
    AnnotationFormat.yoloV4 catsByJobFix outs finalCsv hpr
  rw [hpr]
  simp only [Except.map]
  rw [h.1]
  decide
